import Mathlib

/-!
Verification of the PNG chunk container codec.

The development shallowly embeds the codec's Rust sources:
  * `chunk_type.rs` — the 4-byte chunk type code (`ChunkType`, a `u32`)
    with its case-derived predicates;
  * `chunk.rs` — a single length-prefixed, CRC-protected chunk
    (`Chunk`), its constructor, serializer and parser, and the
    CRC-32/PNG checksum;
  * the `Png` container (signature plus ordered chunk list), whose
    source file is not part of the provided sources and is modelled
    from the specification.

Machine integers are embedded as `Nat` with explicit `% 2 ^ 32`
reductions where the Rust code relies on `u32` wrapping; byte buffers
are `List Nat` whose entries are below 256.  Panics (out-of-bounds
slicing, `expect`) are embedded as explicit failure constructors,
distinct from the structured `Err` values the Rust code returns.
-/

namespace PngCodec

/-- Big-endian byte decomposition of a 32-bit value
(`u32::to_be_bytes`). -/
def u32toBeBytes (v : Nat) : List Nat :=
  [v / 2 ^ 24 % 256, v / 2 ^ 16 % 256, v / 2 ^ 8 % 256, v % 256]

/-- Big-endian recomposition of a list of bytes
(`u32::from_be_bytes` on a 4-byte slice). -/
def u32fromBeBytes (l : List Nat) : Nat :=
  l.foldl (fun acc b => acc * 256 + b) 0

/-- `u8::is_ascii_uppercase`: the byte is in `b'A'..=b'Z'`. -/
def isAsciiUppercase (b : Nat) : Bool := decide (65 ≤ b ∧ b ≤ 90)

/-- `u8::is_ascii_lowercase`: the byte is in `b'a'..=b'z'`. -/
def isAsciiLowercase (b : Nat) : Bool := decide (97 ≤ b ∧ b ≤ 122)

/-- An ASCII letter: lowercase or uppercase. -/
def isAsciiLetter (b : Nat) : Bool := isAsciiLowercase b || isAsciiUppercase b

/-- `pub struct ChunkType(pub u32)` from `chunk_type.rs`. -/
structure ChunkType where
  val : Nat
deriving DecidableEq, Repr

/-- `ChunkType::bytes`: the big-endian bytes of the inner `u32`. -/
def ChunkType.bytes (t : ChunkType) : List Nat := u32toBeBytes t.val

/-- The enumerated-byte loop of `ChunkType::is_valid`: returns `false` as
soon as byte 2 is not uppercase or some byte is not an ASCII letter. -/
def isValidLoop : List (Nat × Nat) → Bool
  | [] => true
  | (i, b) :: rest =>
    if i == 2 && ! isAsciiUppercase b then false
    else if ! isAsciiLowercase b && ! isAsciiUppercase b then false
    else isValidLoop rest

/-- `ChunkType::is_valid` from `chunk_type.rs`. -/
def ChunkType.is_valid (t : ChunkType) : Bool := isValidLoop t.bytes.enum

/-- The enumerated-byte loop of `ChunkType::is_err`: same tests as
`is_valid`, with the returned booleans flipped. -/
def isErrLoop : List (Nat × Nat) → Bool
  | [] => false
  | (i, b) :: rest =>
    if i == 2 && ! isAsciiUppercase b then true
    else if ! isAsciiLowercase b && ! isAsciiUppercase b then true
    else isErrLoop rest

/-- `ChunkType::is_err` from `chunk_type.rs`. -/
def ChunkType.is_err (t : ChunkType) : Bool := isErrLoop t.bytes.enum

/-- The loop of `ChunkType::set_bitness`: true iff the byte at
`bit_position` is ASCII uppercase. -/
def setBitnessLoop (pos : Nat) : List (Nat × Nat) → Bool
  | [] => false
  | (i, b) :: rest =>
    if i == pos && isAsciiUppercase b then true else setBitnessLoop pos rest

/-- `ChunkType::set_bitness` from `chunk_type.rs`. -/
def ChunkType.set_bitness (t : ChunkType) (pos : Nat) : Bool :=
  setBitnessLoop pos t.bytes.enum

/-- `ChunkType::is_critical`. -/
def ChunkType.is_critical (t : ChunkType) : Bool :=
  t.is_valid && t.set_bitness 0

/-- `ChunkType::is_public`. -/
def ChunkType.is_public (t : ChunkType) : Bool :=
  t.is_valid && t.set_bitness 1

/-- `ChunkType::is_reserved_bit_valid`. -/
def ChunkType.is_reserved_bit_valid (t : ChunkType) : Bool :=
  t.is_valid && t.set_bitness 2

/-- `ChunkType::is_safe_to_copy`. -/
def ChunkType.is_safe_to_copy (t : ChunkType) : Bool :=
  t.is_valid && ! t.set_bitness 3

/-- The assignment loop of `FromStr for ChunkType`: writes `char as u8`
(the low 8 bits of each character) into a 4-byte array at successive
indices; an index past the end of the array is a Rust panic, embedded
as `none`. -/
def fromStrLoop : List Nat → Nat → List Nat → Option (List Nat)
  | [], _, chars => some chars
  | c :: rest, i, chars =>
    if i < chars.length then fromStrLoop rest (i + 1) (chars.set i (c % 256))
    else none

/-- `FromStr for ChunkType` from `chunk_type.rs`: starts from the
zero-initialized array `[0, 0, 0, 0]`, writes the characters of `s`
(given as a list of Unicode code points), and on success always
returns `Ok` with the big-endian recomposition.  `none` is the panic
on a string longer than 4 characters. -/
def ChunkType.from_str (s : List Nat) : Option ChunkType :=
  match fromStrLoop s 0 [0, 0, 0, 0] with
  | some chars => some ⟨u32fromBeBytes chars⟩
  | none => none

/-! ## CRC-32 (the `crc` crate run with `PNG_CRC_ALGO` from `chunk.rs`)

`PNG_CRC_ALGO` is `width: 32, poly: 0x04C11DB7, init: 0xFFFFFFFF,
refin: true, refout: true, xorout: 0xFFFFFFFF`.  With both reflections
enabled the crc crate computes the standard reflected CRC-32: the
working register holds the bit-reversed remainder, each input byte is
xored into the low bits, and each of the 8 bit steps shifts right,
xoring in the bit-reversed polynomial when the low bit was set. -/

/-- The `poly` field of `PNG_CRC_ALGO`. -/
def PNG_POLY : Nat := 0x04C11DB7

/-- Reversal of the low 32 bits of a value, as the crc crate's
reflected mode applies to the polynomial. -/
def reflect32 (x : Nat) : Nat :=
  (List.range 32).foldl (fun acc i => acc + if x.testBit i then 2 ^ (31 - i) else 0) 0

/-- The bit-reversed polynomial the reflected bit step xors in; the
theorem `reflect32_poly` checks it is the reflection of `PNG_POLY`. -/
def POLY_REFLECTED : Nat := 0xEDB88320

/-- One bit step of the reflected CRC-32. -/
def crcBit (r : Nat) : Nat :=
  if r % 2 == 1 then (r / 2) ^^^ POLY_REFLECTED else r / 2

/-- One byte step of the reflected CRC-32. -/
def crcByte (r b : Nat) : Nat :=
  crcBit (crcBit (crcBit (crcBit (crcBit (crcBit (crcBit (crcBit (r ^^^ b % 256))))))))

/-- `Crc::<u32>::new(&PNG_CRC_ALGO).checksum(data)`: reflected CRC-32
with initial value and final xor `0xFFFFFFFF`. -/
def crc32 (data : List Nat) : Nat :=
  data.foldl crcByte 0xFFFFFFFF ^^^ 0xFFFFFFFF

/-! ## Chunk (`chunk.rs`) -/

/-- `pub struct Chunk` from `chunk.rs`. -/
structure Chunk where
  data_length : Nat
  chunk_type : ChunkType
  message_bytes : List Nat
  crc : Nat
deriving DecidableEq, Repr

/-- `get_crc_checksum` from `chunk.rs`: the CRC-32 of the big-endian
type code bytes followed by the payload bytes. -/
def get_crc_checksum (chunk_type : ChunkType) (data : List Nat) : Nat :=
  crc32 (u32toBeBytes chunk_type.val ++ data)

/-- `Chunk::new` from `chunk.rs`: `data.len() as u32` is the declared
length and the CRC is computed over type code and payload. -/
def Chunk.new (chunk_type : ChunkType) (data : List Nat) : Chunk :=
  { data_length := data.length % 2 ^ 32
    chunk_type := chunk_type
    message_bytes := data
    crc := get_crc_checksum chunk_type data }

/-- `Chunk::length`. -/
def Chunk.length (c : Chunk) : Nat := c.data_length

/-- `Chunk::as_bytes` from `chunk.rs`: big-endian declared length,
big-endian type code, payload, big-endian stored CRC. -/
def Chunk.as_bytes (c : Chunk) : List Nat :=
  u32toBeBytes c.data_length ++ u32toBeBytes c.chunk_type.val ++
    c.message_bytes ++ u32toBeBytes c.crc

/-- A UTF-8 continuation byte, `0x80..=0xBF`. -/
def isUtf8Cont (b : Nat) : Bool := decide (128 ≤ b ∧ b ≤ 191)

/-- One step of the standard UTF-8 acceptor used by
`std::str::from_utf8`.  State 0 expects a leading byte; states 1–3
expect that many unconstrained continuation bytes; states 4–7 encode
the constrained second byte after `0xE0`, `0xED`, `0xF0` and `0xF4`
(overlong, surrogate and out-of-range rejection). -/
def utf8Step : Nat → Nat → Option Nat
  | 0, b =>
    if b ≤ 0x7F then some 0
    else if 0xC2 ≤ b ∧ b ≤ 0xDF then some 1
    else if b = 0xE0 then some 4
    else if (0xE1 ≤ b ∧ b ≤ 0xEC) ∨ b = 0xEE ∨ b = 0xEF then some 2
    else if b = 0xED then some 5
    else if b = 0xF0 then some 6
    else if 0xF1 ≤ b ∧ b ≤ 0xF3 then some 3
    else if b = 0xF4 then some 7
    else none
  | 1, b => if isUtf8Cont b then some 0 else none
  | 2, b => if isUtf8Cont b then some 1 else none
  | 3, b => if isUtf8Cont b then some 2 else none
  | 4, b => if 0xA0 ≤ b ∧ b ≤ 0xBF then some 1 else none
  | 5, b => if 0x80 ≤ b ∧ b ≤ 0x9F then some 1 else none
  | 6, b => if 0x90 ≤ b ∧ b ≤ 0xBF then some 2 else none
  | 7, b => if 0x80 ≤ b ∧ b ≤ 0x8F then some 2 else none
  | _ + 8, _ => none

/-- `std::str::from_utf8(bytes).is_ok()`: the byte sequence is valid
UTF-8 (the acceptor ends in the start state). -/
def isValidUtf8 (l : List Nat) : Bool :=
  (l.foldl (fun s b => match s with | some st => utf8Step st b | none => none)
    (some 0)) == some 0

/-- `Chunk::data_as_string` from `chunk.rs`:
`from_utf8(..).expect("cannot convert utf8 to str")`.  The `expect`
makes invalid UTF-8 a process abort, embedded as `none` — the `Err`
case of the declared `io::Result` return type is never produced.  On
valid UTF-8 the payload bytes are returned (as the decoded string's
bytes). -/
def Chunk.data_as_string (c : Chunk) : Option (List Nat) :=
  if isValidUtf8 c.message_bytes then some c.message_bytes else none

/-- Outcome of `TryFrom<&[u8]> for Chunk`: success, the structured
`Err("crc checksum failed")`, or a Rust panic (an out-of-bounds slice
in the field extraction). -/
inductive ChunkParseResult where
  | ok : Chunk → ChunkParseResult
  | crcMismatch : ChunkParseResult
  | panic : ChunkParseResult
deriving DecidableEq, Repr

/-- `TryFrom<&[u8]> for Chunk` from `chunk.rs`.  The slices
`value[0..=3]` and `value[4..=7]` panic when the buffer has fewer than
8 bytes (there is no 12-byte minimum check in the code); the CRC slice
is the last 4 bytes, and the payload is `value[8..len-4]`, taken only
when the buffer is strictly longer than 12 bytes. -/
def chunkParse (value : List Nat) : ChunkParseResult :=
  if value.length < 8 then .panic
  else
    let data_length_raw := value.take 4
    let chunk_type_raw := (value.drop 4).take 4
    let crc_raw := value.drop (value.length - 4)
    let message_data_raw :=
      if value.length > 12 then (value.drop 8).take (value.length - 12) else []
    if u32fromBeBytes crc_raw ≠
        get_crc_checksum ⟨u32fromBeBytes chunk_type_raw⟩ message_data_raw then
      .crcMismatch
    else
      .ok { data_length := u32fromBeBytes data_length_raw
            chunk_type := ⟨u32fromBeBytes chunk_type_raw⟩
            message_bytes := message_data_raw
            crc := u32fromBeBytes crc_raw }

/-! ## Png container

The `Png` module's source file is not among the provided sources (only
`commands.rs` calls it), so the container is modelled from the
specification, §4.3 and §6. -/

/-- The fixed 8-byte PNG file signature. -/
def PNG_SIGNATURE : List Nat := [0x89, 0x50, 0x4E, 0x47, 0x0D, 0x0A, 0x1A, 0x0A]

/-- Container parse errors, from the specification's error kinds:
`BadSignature`, `TruncatedChunk`, and any chunk-level failure
propagated upward. -/
inductive PngError where
  | badSignature : PngError
  | truncatedChunk : PngError
  | chunkFailed : PngError
deriving DecidableEq, Repr

/-- Modelled from the spec: the `Png` container, the fixed signature
plus an ordered list of chunks (the signature is constant, so only the
chunk sequence is state). -/
structure Png where
  chunks : List Chunk
deriving DecidableEq, Repr

/-- Modelled from the spec: the chunk loop of container parsing —
"repeatedly read a 4-byte length, compute the next chunk's total span
as `12 + length`, parse that span as a Chunk (propagating any CRC or
size failure upward and aborting the whole parse), and advance.
Parsing stops when all bytes are consumed; a dangling partial chunk at
the end is a `TruncatedChunk` error."  The `fuel` argument bounds the
number of iterations; each iteration consumes at least 12 bytes, so
`rest.length` iterations always suffice. -/
def parseChunksFuel : Nat → List Nat → Except PngError (List Chunk)
  | _, [] => .ok []
  | 0, _ :: _ => .error .truncatedChunk
  | fuel + 1, rest =>
    if rest.length < 4 then .error .truncatedChunk
    else
      let len := u32fromBeBytes (rest.take 4)
      let span := 12 + len
      if rest.length < span then .error .truncatedChunk
      else
        match chunkParse (rest.take span) with
        | .ok c =>
          match parseChunksFuel fuel (rest.drop span) with
          | .ok cs => .ok (c :: cs)
          | .error e => .error e
        | _ => .error .chunkFailed

/-- Modelled from the spec: parse the byte stream after the signature
chunk-by-chunk. -/
def parseChunks (rest : List Nat) : Except PngError (List Chunk) :=
  parseChunksFuel rest.length rest

/-- Modelled from the spec: `Png::try_from` — "first 8 bytes must equal
the fixed signature exactly, else `BadSignature`", then the chunk
loop on the remaining bytes. -/
def pngParse (bytes : List Nat) : Except PngError Png :=
  if bytes.take 8 ≠ PNG_SIGNATURE then .error .badSignature
  else
    match parseChunks (bytes.drop 8) with
    | .ok cs => .ok ⟨cs⟩
    | .error e => .error e

/-- Modelled from the spec: `Png::as_bytes` — "signature ‖ (each
chunk's `toBytes()` in current sequence order), no separators." -/
def Png.as_bytes (p : Png) : List Nat :=
  PNG_SIGNATURE ++ (p.chunks.map Chunk.as_bytes).flatten

/-! ## Concrete inputs used by the test suite and by witnesses -/

/-- The `u32` value of the type code `"RuSt"` (bytes `82 117 83 116`). -/
def ruStVal : Nat := 0x52755374

/-- The ASCII bytes of
`"This is where your secret message will be!"` (42 bytes). -/
def secretPayload : List Nat :=
  [84, 104, 105, 115, 32, 105, 115, 32, 119, 104, 101, 114, 101, 32, 121, 111,
   117, 114, 32, 115, 101, 99, 114, 101, 116, 32, 109, 101, 115, 115, 97, 103,
   101, 32, 119, 105, 108, 108, 32, 98, 101, 33]

/-- A serialized 12-byte chunk: length 0, type `"RuSt"`,
CRC `crc32("RuSt") = 0xD484093C`. -/
def emptyRuStChunkBytes : List Nat :=
  [0, 0, 0, 0, 82, 117, 83, 116, 212, 132, 9, 60]

/-- An 11-byte buffer that passes the chunk parser's CRC check: the
stored CRC is read from the last 4 bytes (positions 7–10, overlapping
the type code's last byte), and
`crc32([0, 0, 1, 84]) = 0x54597BB0 = [84, 89, 123, 176]` has high byte
`84` equal to byte 7. -/
def elevenByteBuffer : List Nat :=
  [0, 0, 0, 0, 0, 0, 1, 84, 89, 123, 176]

/-! ## Supporting lemmas -/

theorem u32toBeBytes_length (v : Nat) : (u32toBeBytes v).length = 4 := rfl

theorem u32toBeBytes_mem_lt (v : Nat) : ∀ b ∈ u32toBeBytes v, b < 256 := by
  simp only [u32toBeBytes, List.mem_cons, List.not_mem_nil, or_false]
  rintro b (rfl | rfl | rfl | rfl) <;> omega

theorem u32fromBeBytes_toBe (v : Nat) (h : v < 2 ^ 32) :
    u32fromBeBytes (u32toBeBytes v) = v := by
  simp only [u32fromBeBytes, u32toBeBytes, List.foldl]
  omega

theorem u32toBeBytes_fromBe (l : List Nat) (hlen : l.length = 4)
    (hb : ∀ x ∈ l, x < 256) : u32toBeBytes (u32fromBeBytes l) = l := by
  match l, hlen with
  | [a, b, c, d], _ =>
    have ha : a < 256 := hb a (by simp)
    have hb' : b < 256 := hb b (by simp)
    have hc : c < 256 := hb c (by simp)
    have hd : d < 256 := hb d (by simp)
    simp only [u32fromBeBytes, u32toBeBytes, List.foldl, List.cons.injEq, and_true]
    omega

theorem u32fromBeBytes_lt (l : List Nat) (hlen : l.length = 4)
    (hb : ∀ x ∈ l, x < 256) : u32fromBeBytes l < 2 ^ 32 := by
  match l, hlen with
  | [a, b, c, d], _ =>
    have ha : a < 256 := hb a (by simp)
    have hb' : b < 256 := hb b (by simp)
    have hc : c < 256 := hb c (by simp)
    have hd : d < 256 := hb d (by simp)
    simp only [u32fromBeBytes, List.foldl]
    omega

theorem reflect32_poly : reflect32 PNG_POLY = POLY_REFLECTED := by decide

theorem crcBit_lt (r : Nat) (h : r < 2 ^ 32) : crcBit r < 2 ^ 32 := by
  rw [crcBit, POLY_REFLECTED]
  split
  · exact Nat.xor_lt_two_pow (by omega) (by norm_num)
  · omega

theorem crcByte_lt (r b : Nat) (h : r < 2 ^ 32) : crcByte r b < 2 ^ 32 := by
  have h0 : r ^^^ b % 256 < 2 ^ 32 := Nat.xor_lt_two_pow h (by omega)
  exact crcBit_lt _ (crcBit_lt _ (crcBit_lt _ (crcBit_lt _ (crcBit_lt _
    (crcBit_lt _ (crcBit_lt _ (crcBit_lt _ h0)))))))

theorem crc32_lt (data : List Nat) : crc32 data < 2 ^ 32 := by
  rw [crc32]
  refine Nat.xor_lt_two_pow ?_ (by norm_num)
  have h : ∀ (l : List Nat) (r : Nat), r < 2 ^ 32 → l.foldl crcByte r < 2 ^ 32 := by
    intro l
    induction l with
    | nil => intro r hr; simpa using hr
    | cons hd tl ih => intro r hr; exact ih _ (crcByte_lt _ _ hr)
  exact h data 0xFFFFFFFF (by norm_num)

/-! ## ChunkType theorems -/

theorem isValidLoop_elim (x0 x1 x2 x3 : Nat) :
    isValidLoop [(0, x0), (1, x1), (2, x2), (3, x3)] =
      (isAsciiLetter x0 && isAsciiLetter x1 && isAsciiUppercase x2 &&
        isAsciiLetter x3) := by
  simp only [isValidLoop, isAsciiLetter]
  cases h0l : isAsciiLowercase x0 <;> cases h0u : isAsciiUppercase x0 <;>
    cases h1l : isAsciiLowercase x1 <;> cases h1u : isAsciiUppercase x1 <;>
    cases h2l : isAsciiLowercase x2 <;> cases h2u : isAsciiUppercase x2 <;>
    cases h3l : isAsciiLowercase x3 <;> cases h3u : isAsciiUppercase x3 <;>
    simp

theorem chunk_type_enum (t : ChunkType) :
    t.bytes.enum = [(0, t.val / 2 ^ 24 % 256), (1, t.val / 2 ^ 16 % 256),
      (2, t.val / 2 ^ 8 % 256), (3, t.val % 256)] := rfl

/-- C5: for every `ChunkType` value, `is_valid` returns true iff each
of its 4 bytes is an ASCII letter and the byte at position 2 is
uppercase. -/
theorem chunk_type_is_valid_iff (t : ChunkType) :
    t.is_valid = true ↔
      ((∀ b ∈ t.bytes, isAsciiLetter b = true) ∧
        isAsciiUppercase (t.val / 2 ^ 8 % 256) = true) := by
  rw [ChunkType.is_valid, chunk_type_enum, isValidLoop_elim]
  have hbytes : t.bytes = [t.val / 2 ^ 24 % 256, t.val / 2 ^ 16 % 256,
      t.val / 2 ^ 8 % 256, t.val % 256] := rfl
  rw [hbytes]
  simp only [Bool.and_eq_true, List.mem_cons, List.not_mem_nil, or_false,
    forall_eq_or_imp, forall_eq]
  constructor
  · rintro ⟨⟨⟨h0, h1⟩, h2⟩, h3⟩
    refine ⟨⟨h0, h1, ?_, h3⟩, h2⟩
    simp only [isAsciiLetter, Bool.or_eq_true]
    exact Or.inr h2
  · rintro ⟨⟨h0, h1, _, h3⟩, h2⟩
    exact ⟨⟨⟨h0, h1⟩, h2⟩, h3⟩

theorem setBitnessLoop_elim_0 (x0 x1 x2 x3 : Nat) :
    setBitnessLoop 0 [(0, x0), (1, x1), (2, x2), (3, x3)] = isAsciiUppercase x0 := by
  simp only [setBitnessLoop]
  cases isAsciiUppercase x0 <;> simp

theorem setBitnessLoop_elim_1 (x0 x1 x2 x3 : Nat) :
    setBitnessLoop 1 [(0, x0), (1, x1), (2, x2), (3, x3)] = isAsciiUppercase x1 := by
  simp only [setBitnessLoop]
  cases isAsciiUppercase x1 <;> simp

theorem setBitnessLoop_elim_2 (x0 x1 x2 x3 : Nat) :
    setBitnessLoop 2 [(0, x0), (1, x1), (2, x2), (3, x3)] = isAsciiUppercase x2 := by
  simp only [setBitnessLoop]
  cases isAsciiUppercase x2 <;> simp

theorem setBitnessLoop_elim_3 (x0 x1 x2 x3 : Nat) :
    setBitnessLoop 3 [(0, x0), (1, x1), (2, x2), (3, x3)] = isAsciiUppercase x3 := by
  simp only [setBitnessLoop]
  cases isAsciiUppercase x3 <;> simp

/-- C6: each case-derived predicate is the conjunction of validity and
the (possibly negated) uppercase test of its byte position, and on an
invalid type all four predicates are false. -/
theorem chunk_type_flag_predicates (t : ChunkType) :
    t.is_critical = (t.is_valid && isAsciiUppercase (t.val / 2 ^ 24 % 256)) ∧
      t.is_public = (t.is_valid && isAsciiUppercase (t.val / 2 ^ 16 % 256)) ∧
      t.is_reserved_bit_valid = (t.is_valid && isAsciiUppercase (t.val / 2 ^ 8 % 256)) ∧
      t.is_safe_to_copy = (t.is_valid && ! isAsciiUppercase (t.val % 256)) ∧
      (t.is_valid = false →
        t.is_critical = false ∧ t.is_public = false ∧
          t.is_reserved_bit_valid = false ∧ t.is_safe_to_copy = false) := by
  have h0 : t.set_bitness 0 = isAsciiUppercase (t.val / 2 ^ 24 % 256) := by
    rw [ChunkType.set_bitness, chunk_type_enum, setBitnessLoop_elim_0]
  have h1 : t.set_bitness 1 = isAsciiUppercase (t.val / 2 ^ 16 % 256) := by
    rw [ChunkType.set_bitness, chunk_type_enum, setBitnessLoop_elim_1]
  have h2 : t.set_bitness 2 = isAsciiUppercase (t.val / 2 ^ 8 % 256) := by
    rw [ChunkType.set_bitness, chunk_type_enum, setBitnessLoop_elim_2]
  have h3 : t.set_bitness 3 = isAsciiUppercase (t.val % 256) := by
    rw [ChunkType.set_bitness, chunk_type_enum, setBitnessLoop_elim_3]
  refine ⟨?_, ?_, ?_, ?_, ?_⟩
  · rw [ChunkType.is_critical, h0]
  · rw [ChunkType.is_public, h1]
  · rw [ChunkType.is_reserved_bit_valid, h2]
  · rw [ChunkType.is_safe_to_copy, h3]
  · intro hv
    rw [ChunkType.is_critical, ChunkType.is_public, ChunkType.is_reserved_bit_valid,
      ChunkType.is_safe_to_copy, hv]
    simp

/-- Witness for C6 at the invalid type `"Rust"`: all four predicates
are false. -/
theorem chunk_type_flag_predicates_witness :
    (ChunkType.mk 0x52757374).is_critical = false ∧
      (ChunkType.mk 0x52757374).is_public = false ∧
      (ChunkType.mk 0x52757374).is_reserved_bit_valid = false ∧
      (ChunkType.mk 0x52757374).is_safe_to_copy = false :=
  (chunk_type_flag_predicates ⟨0x52757374⟩).2.2.2.2 (by decide)

theorem isErrLoop_not_isValidLoop (l : List (Nat × Nat)) :
    isErrLoop l = ! isValidLoop l := by
  induction l with
  | nil => rfl
  | cons hd tl ih =>
    obtain ⟨i, b⟩ := hd
    by_cases h1 : (i == 2 && ! isAsciiUppercase b) = true
    · simp [isErrLoop, isValidLoop, h1]
    · by_cases h2 : (! isAsciiLowercase b && ! isAsciiUppercase b) = true
      · simp [isErrLoop, isValidLoop, h1, h2]
      · simp [isErrLoop, isValidLoop, h1, h2, ih]

/-- C10: `is_err` is the exact logical negation of `is_valid`. -/
theorem chunk_type_is_err_not_is_valid (t : ChunkType) :
    t.is_err = ! t.is_valid := by
  rw [ChunkType.is_err, ChunkType.is_valid, isErrLoop_not_isValidLoop]

/-- C7 diverges from the code: `from_str` on the 2-character string
`"Ru"` succeeds with a zero-padded type code instead of failing with a
structured error, and on the 5-character string `"RuStX"` it panics
(out-of-bounds array write) instead of returning an error. -/
theorem from_str_pads_short_and_panics_long :
    ChunkType.from_str [82, 117] = some ⟨0x52750000⟩ ∧
      ChunkType.from_str [82, 117, 83, 116, 88] = none := by
  constructor <;> rfl

/-! ## Chunk theorems -/

/-- Stepwise evaluation of the CRC-32 of `"RuSt"` followed by the
42-byte secret payload, one byte of input per rewrite (a single
kernel reduction of the whole 46-byte fold is too deep). -/
theorem secret_crc : get_crc_checksum ⟨ruStVal⟩ secretPayload = 2882656334 := by
  have hcat : u32toBeBytes (ChunkType.mk ruStVal).val ++ secretPayload =
      [82, 117, 83, 116, 84, 104, 105, 115, 32, 105, 115, 32, 119, 104, 101, 114, 101, 32, 121, 111, 117, 114, 32, 115, 101, 99, 114, 101, 116, 32, 109, 101, 115, 115, 97, 103, 101, 32, 119, 105, 108, 108, 32, 98, 101, 33] := by decide
  rw [get_crc_checksum, hcat, crc32]
  rw [List.foldl_cons, show crcByte 4294967295 82 = 2828542122 by decide]
  rw [List.foldl_cons, show crcByte 2828542122 117 = 381966181 by decide]
  rw [List.foldl_cons, show crcByte 381966181 83 = 3484176846 by decide]
  rw [List.foldl_cons, show crcByte 3484176846 116 = 729544387 by decide]
  rw [List.foldl_cons, show crcByte 729544387 84 = 1849720081 by decide]
  rw [List.foldl_cons, show crcByte 1849720081 104 = 699894245 by decide]
  rw [List.foldl_cons, show crcByte 699894245 105 = 3827792002 by decide]
  rw [List.foldl_cons, show crcByte 3827792002 115 = 3395216882 by decide]
  rw [List.foldl_cons, show crcByte 3395216882 32 = 1746398493 by decide]
  rw [List.foldl_cons, show crcByte 1746398493 105 = 1459659464 by decide]
  rw [List.foldl_cons, show crcByte 1459659464 115 = 1558473382 by decide]
  rw [List.foldl_cons, show crcByte 1558473382 32 = 76006015 by decide]
  rw [List.foldl_cons, show crcByte 76006015 119 = 249499632 by decide]
  rw [List.foldl_cons, show crcByte 249499632 104 = 4275750009 by decide]
  rw [List.foldl_cons, show crcByte 4275750009 101 = 352290443 by decide]
  rw [List.foldl_cons, show crcByte 352290443 114 = 3296048446 by decide]
  rw [List.foldl_cons, show crcByte 3296048446 101 = 4236115401 by decide]
  rw [List.foldl_cons, show crcByte 4236115401 32 = 3643418401 by decide]
  rw [List.foldl_cons, show crcByte 3643418401 121 = 1701442529 by decide]
  rw [List.foldl_cons, show crcByte 1701442529 111 = 174442452 by decide]
  rw [List.foldl_cons, show crcByte 174442452 117 = 2715547321 by decide]
  rw [List.foldl_cons, show crcByte 2715547321 114 = 202883278 by decide]
  rw [List.foldl_cons, show crcByte 202883278 32 = 1203689663 by decide]
  rw [List.foldl_cons, show crcByte 1203689663 115 = 2459250755 by decide]
  rw [List.foldl_cons, show crcByte 2459250755 101 = 3533639885 by decide]
  rw [List.foldl_cons, show crcByte 3533639885 99 = 834408959 by decide]
  rw [List.foldl_cons, show crcByte 834408959 114 = 2469938060 by decide]
  rw [List.foldl_cons, show crcByte 2469938060 101 = 3645203103 by decide]
  rw [List.foldl_cons, show crcByte 3645203103 116 = 922844818 by decide]
  rw [List.foldl_cons, show crcByte 922844818 32 = 626578398 by decide]
  rw [List.foldl_cons, show crcByte 626578398 109 = 1380825829 by decide]
  rw [List.foldl_cons, show crcByte 1380825829 101 = 3991588506 by decide]
  rw [List.foldl_cons, show crcByte 3991588506 115 = 3644567570 by decide]
  rw [List.foldl_cons, show crcByte 3644567570 115 = 980183678 by decide]
  rw [List.foldl_cons, show crcByte 980183678 97 = 2368889247 by decide]
  rw [List.foldl_cons, show crcByte 2368889247 103 = 3018541135 by decide]
  rw [List.foldl_cons, show crcByte 3018541135 101 = 3674743454 by decide]
  rw [List.foldl_cons, show crcByte 3674743454 32 = 738367145 by decide]
  rw [List.foldl_cons, show crcByte 738367145 119 = 1632107845 by decide]
  rw [List.foldl_cons, show crcByte 1632107845 105 = 850995998 by decide]
  rw [List.foldl_cons, show crcByte 850995998 108 = 3191449915 by decide]
  rw [List.foldl_cons, show crcByte 3191449915 108 = 4122082814 by decide]
  rw [List.foldl_cons, show crcByte 4122082814 32 = 1637764654 by decide]
  rw [List.foldl_cons, show crcByte 1637764654 98 = 2131465205 by decide]
  rw [List.foldl_cons, show crcByte 2131465205 101 = 4033910999 by decide]
  rw [List.foldl_cons, show crcByte 4033910999 33 = 1412310961 by decide]
  rw [List.foldl_nil]
  decide

/-- C3: the CRC stored by `Chunk::new` is the CRC-32/PNG checksum of
the 4 type-code bytes followed by the payload bytes (the length field
is not an input of the checksum), and the `"RuSt"` chunk of the test
suite has declared length 42 and CRC 2882656334. -/
theorem chunk_new_crc_spec :
    (∀ (t : ChunkType) (data : List Nat),
        (Chunk.new t data).crc = crc32 (u32toBeBytes t.val ++ data)) ∧
      (Chunk.new ⟨ruStVal⟩ secretPayload).length = 42 ∧
      (Chunk.new ⟨ruStVal⟩ secretPayload).crc = 2882656334 :=
  ⟨fun _ _ => rfl, rfl, secret_crc⟩

set_option maxRecDepth 100000 in
/-- The crc crate's `check` value: the checksum of the bytes of
`"123456789"` is `0xCBF43926`, as `PNG_CRC_ALGO` declares. -/
theorem crc32_check_value :
    crc32 [0x31, 0x32, 0x33, 0x34, 0x35, 0x36, 0x37, 0x38, 0x39] = 0xCBF43926 := by
  decide

/-- C9 diverges from the code: `data_as_string` on a payload that is
not valid UTF-8 (here the single byte `0xFF`) is a process abort — the
`expect` panic, embedded as `none` — and never the `EncodingError`
value the claim requires; on a valid UTF-8 payload the decoded string
is returned. -/
theorem data_as_string_panics_on_invalid_utf8 :
    (Chunk.new ⟨ruStVal⟩ [255]).data_as_string = none ∧
      (Chunk.new ⟨ruStVal⟩ [104, 105]).data_as_string = some [104, 105] := by
  constructor <;> rfl

set_option maxRecDepth 100000 in
/-- C8 diverges from the code: the chunk parser has no minimum-size
check at all — a buffer shorter than 8 bytes panics on slicing
(embedded as `.panic`), and an 11-byte buffer is not rejected as too
short but parsed, here even successfully. -/
theorem chunkParse_short_buffer_behavior :
    chunkParse [] = .panic ∧
      chunkParse [0, 0, 0, 0] = .panic ∧
      chunkParse elevenByteBuffer = .ok ⟨0, ⟨340⟩, [], 1415150512⟩ := by
  refine ⟨rfl, rfl, by decide⟩

set_option maxRecDepth 100000 in
/-- C2 as stated is false: the 11-byte buffer `elevenByteBuffer`
parses successfully, yet the parsed chunk reserializes to a 12-byte
buffer different from the input. -/
theorem chunk_roundtrip_counterexample :
    chunkParse elevenByteBuffer = .ok ⟨0, ⟨340⟩, [], 1415150512⟩ ∧
      (Chunk.mk 0 ⟨340⟩ [] 1415150512).as_bytes ≠ elevenByteBuffer := by
  constructor <;> decide

/-- Inversion of a successful chunk parse: the buffer had at least 8
bytes and every field of the resulting chunk is the decoded slice the
code extracts; the stored CRC equals the recomputed one. -/
theorem chunkParse_ok_elim (b : List Nat) (c : Chunk)
    (h : chunkParse b = .ok c) :
    8 ≤ b.length ∧
      c.data_length = u32fromBeBytes (b.take 4) ∧
      c.chunk_type = ⟨u32fromBeBytes ((b.drop 4).take 4)⟩ ∧
      c.message_bytes = (if 12 < b.length then (b.drop 8).take (b.length - 12) else []) ∧
      c.crc = u32fromBeBytes (b.drop (b.length - 4)) ∧
      c.crc = get_crc_checksum c.chunk_type c.message_bytes := by
  simp only [chunkParse, gt_iff_lt] at h
  split at h
  · exact absurd h (by simp)
  · rename_i h8
    split at h
    · rename_i hgt
      split at h
      · exact absurd h (by simp)
      · rename_i hcrc
        rw [not_ne_iff] at hcrc
        simp only [ChunkParseResult.ok.injEq] at h
        subst h
        exact ⟨by omega, rfl, rfl, by rw [if_pos hgt], rfl, hcrc⟩
    · rename_i hgt
      split at h
      · exact absurd h (by simp)
      · rename_i hcrc
        rw [not_ne_iff] at hcrc
        simp only [ChunkParseResult.ok.injEq] at h
        subst h
        exact ⟨by omega, rfl, rfl, by rw [if_neg hgt], rfl, hcrc⟩

/-- A successful chunk parse keeps the chunk well formed: all numeric
fields fit in 32 bits, the payload is byte-valued, and the stored CRC
is the recomputed checksum. -/
theorem chunkParse_ok_wf (b : List Nat) (c : Chunk) (hb : ∀ x ∈ b, x < 256)
    (h : chunkParse b = .ok c) :
    c.data_length < 2 ^ 32 ∧ c.chunk_type.val < 2 ^ 32 ∧
      (∀ x ∈ c.message_bytes, x < 256) ∧
      c.crc = get_crc_checksum c.chunk_type c.message_bytes := by
  obtain ⟨h8, hdl, hct, hmsg, -, hchk⟩ := chunkParse_ok_elim b c h
  refine ⟨?_, ?_, ?_, hchk⟩
  · rw [hdl]
    exact u32fromBeBytes_lt _ (by simp [List.length_take]; omega)
      (fun x hx => hb x (List.take_subset _ _ hx))
  · rw [hct]
    exact u32fromBeBytes_lt _ (by simp [List.length_take, List.length_drop]; omega)
      (fun x hx => hb x (List.drop_subset _ _ (List.take_subset _ _ hx)))
  · rw [hmsg]
    split
    · exact fun x hx => hb x (List.drop_subset _ _ (List.take_subset _ _ hx))
    · simp

/-- Reserializing a chunk parsed from a buffer of at least 12 bytes
reproduces the buffer exactly. -/
theorem chunkParse_ok_as_bytes (b : List Nat) (c : Chunk)
    (hb : ∀ x ∈ b, x < 256) (hlen : 12 ≤ b.length)
    (h : chunkParse b = .ok c) : c.as_bytes = b := by
  obtain ⟨h8, hdl, hct, hmsg, hcrc, -⟩ := chunkParse_ok_elim b c h
  have hmsg' : c.message_bytes = (b.drop 8).take (b.length - 12) := by
    rw [hmsg]
    split
    · rfl
    · have h12 : b.length - 12 = 0 := by omega
      rw [h12, List.take_zero]
  have hctv : c.chunk_type.val = u32fromBeBytes ((b.drop 4).take 4) := by
    rw [hct]
  rw [Chunk.as_bytes, hdl, hctv, hmsg', hcrc]
  rw [u32toBeBytes_fromBe (b.take 4) (by simp [List.length_take]; omega)
    (fun x hx => hb x (List.take_subset _ _ hx))]
  rw [u32toBeBytes_fromBe ((b.drop 4).take 4)
    (by simp [List.length_take, List.length_drop]; omega)
    (fun x hx => hb x (List.drop_subset _ _ (List.take_subset _ _ hx)))]
  rw [u32toBeBytes_fromBe (b.drop (b.length - 4)) (by simp [List.length_drop]; omega)
    (fun x hx => hb x (List.drop_subset _ _ hx))]
  have e1 : b.take 4 ++ (b.drop 4).take 4 = b.take 8 := by
    have h44 : (8 : Nat) = 4 + 4 := rfl
    rw [h44, List.take_add]
  have e2 : b.take 8 ++ (b.drop 8).take (b.length - 12) = b.take (b.length - 4) := by
    have h4 : b.length - 4 = 8 + (b.length - 12) := by omega
    rw [h4, List.take_add]
  rw [e1, e2, List.take_append_drop]

/-- Parsing the serialization of a well-formed chunk (32-bit numeric
fields, byte-valued payload, stored CRC equal to the recomputed
checksum) succeeds and returns the chunk itself. -/
theorem chunkParse_wf_chunk (c : Chunk)
    (hdl : c.data_length < 2 ^ 32) (ht : c.chunk_type.val < 2 ^ 32)
    (hm : ∀ x ∈ c.message_bytes, x < 256)
    (hcrc : c.crc = get_crc_checksum c.chunk_type c.message_bytes) :
    chunkParse c.as_bytes = .ok c := by
  obtain ⟨dl, ⟨tv⟩, msg, crcv⟩ := c
  simp only at hdl ht hm hcrc
  have hlen : (Chunk.mk dl ⟨tv⟩ msg crcv).as_bytes.length = 12 + msg.length := by
    simp [Chunk.as_bytes, u32toBeBytes]
    omega
  have habytes : (Chunk.mk dl ⟨tv⟩ msg crcv).as_bytes =
      u32toBeBytes dl ++ (u32toBeBytes tv ++ (msg ++ u32toBeBytes crcv)) := by
    simp [Chunk.as_bytes]
  have htake4 : (Chunk.mk dl ⟨tv⟩ msg crcv).as_bytes.take 4 = u32toBeBytes dl := by
    rw [habytes, List.take_left' (u32toBeBytes_length dl)]
  have hdrop4 : (Chunk.mk dl ⟨tv⟩ msg crcv).as_bytes.drop 4 =
      u32toBeBytes tv ++ (msg ++ u32toBeBytes crcv) := by
    rw [habytes, List.drop_left' (u32toBeBytes_length dl)]
  have htype : ((Chunk.mk dl ⟨tv⟩ msg crcv).as_bytes.drop 4).take 4 = u32toBeBytes tv := by
    rw [hdrop4, List.take_left' (u32toBeBytes_length tv)]
  have hdrop8 : (Chunk.mk dl ⟨tv⟩ msg crcv).as_bytes.drop 8 = msg ++ u32toBeBytes crcv := by
    have hassoc : (Chunk.mk dl ⟨tv⟩ msg crcv).as_bytes =
        (u32toBeBytes dl ++ u32toBeBytes tv) ++ (msg ++ u32toBeBytes crcv) := by
      rw [habytes, List.append_assoc]
    rw [hassoc, List.drop_left' (by simp [u32toBeBytes])]
  have hcrcslice : (Chunk.mk dl ⟨tv⟩ msg crcv).as_bytes.drop
      ((Chunk.mk dl ⟨tv⟩ msg crcv).as_bytes.length - 4) = u32toBeBytes crcv := by
    have hassoc : (Chunk.mk dl ⟨tv⟩ msg crcv).as_bytes =
        ((u32toBeBytes dl ++ u32toBeBytes tv) ++ msg) ++ u32toBeBytes crcv := by
      rw [habytes, List.append_assoc, List.append_assoc]
    rw [hlen, hassoc, List.drop_left' (by simp [u32toBeBytes]; omega)]
  have hmsgslice :
      (if 12 < (Chunk.mk dl ⟨tv⟩ msg crcv).as_bytes.length then
          ((Chunk.mk dl ⟨tv⟩ msg crcv).as_bytes.drop 8).take
            ((Chunk.mk dl ⟨tv⟩ msg crcv).as_bytes.length - 12)
        else []) = msg := by
    rw [hlen]
    split
    · rename_i hgt
      rw [hdrop8]
      have hm12 : 12 + msg.length - 12 = msg.length := by omega
      rw [hm12, List.take_left]
    · rename_i hle
      have hm0 : msg = [] := by
        have : msg.length = 0 := by omega
        exact List.eq_nil_of_length_eq_zero this
      rw [hm0]
  rw [chunkParse, if_neg (by rw [hlen]; omega)]
  simp only [gt_iff_lt, htake4, htype, hcrcslice, hmsgslice]
  rw [u32fromBeBytes_toBe crcv (hcrc ▸ crc32_lt _), u32fromBeBytes_toBe tv ht,
    u32fromBeBytes_toBe dl hdl]
  rw [if_neg (not_not_intro hcrc)]

/-- C2 (amended): parsing inverts serialization for every chunk built
by `create` (with a 32-bit type code and byte-valued payload) and for
every chunk produced by a successful parse of a byte buffer; and for
every byte buffer of at least 12 bytes on which chunk parse succeeds,
reserializing the parsed chunk reproduces the buffer exactly. -/
theorem chunk_serialization_roundtrip :
    (∀ (t : ChunkType) (data : List Nat), t.val < 2 ^ 32 →
        (∀ x ∈ data, x < 256) →
        chunkParse ((Chunk.new t data).as_bytes) = .ok (Chunk.new t data)) ∧
      (∀ (b : List Nat) (c : Chunk), (∀ x ∈ b, x < 256) →
        chunkParse b = .ok c → chunkParse c.as_bytes = .ok c) ∧
      (∀ (b : List Nat) (c : Chunk), (∀ x ∈ b, x < 256) → 12 ≤ b.length →
        chunkParse b = .ok c → c.as_bytes = b) := by
  refine ⟨?_, ?_, ?_⟩
  · intro t data ht hdata
    exact chunkParse_wf_chunk (Chunk.new t data)
      (Nat.mod_lt _ (by norm_num)) ht hdata rfl
  · intro b c hb h
    obtain ⟨hdl, ht, hm, hcrc⟩ := chunkParse_ok_wf b c hb h
    exact chunkParse_wf_chunk c hdl ht hm hcrc
  · intro b c hb hlen h
    exact chunkParse_ok_as_bytes b c hb hlen h

set_option maxRecDepth 1000000 in
/-- Witness for C2 at concrete inputs: a freshly created 2-byte-payload
chunk reparses to itself, the parsed empty-payload `"RuSt"` chunk
reparses to itself, and reserializing it reproduces the original
12-byte buffer. -/
theorem chunk_serialization_roundtrip_witness :
    chunkParse ((Chunk.new ⟨ruStVal⟩ [1, 2]).as_bytes) = .ok (Chunk.new ⟨ruStVal⟩ [1, 2]) ∧
      chunkParse ((Chunk.mk 0 ⟨ruStVal⟩ [] 3565422908).as_bytes) =
        .ok (Chunk.mk 0 ⟨ruStVal⟩ [] 3565422908) ∧
      (Chunk.mk 0 ⟨ruStVal⟩ [] 3565422908).as_bytes = emptyRuStChunkBytes :=
  ⟨chunk_serialization_roundtrip.1 ⟨ruStVal⟩ [1, 2] (by decide) (by decide),
   chunk_serialization_roundtrip.2.1 emptyRuStChunkBytes _ (by decide) (by decide),
   chunk_serialization_roundtrip.2.2 emptyRuStChunkBytes _ (by decide) (by decide) (by decide)⟩

/-- C4: on a buffer of at least 12 bytes, chunk parse returns the CRC
mismatch error exactly when the stored trailing CRC differs from the
checksum recomputed over the type bytes and the positional payload
(bytes 8 up to the buffer length minus 4); when they agree, parse
succeeds. -/
theorem chunkParse_crc_mismatch_iff (b : List Nat) (hlen : 12 ≤ b.length) :
    (chunkParse b = .crcMismatch ↔
        u32fromBeBytes (b.drop (b.length - 4)) ≠
          get_crc_checksum ⟨u32fromBeBytes ((b.drop 4).take 4)⟩
            ((b.drop 8).take (b.length - 12))) ∧
      (u32fromBeBytes (b.drop (b.length - 4)) =
          get_crc_checksum ⟨u32fromBeBytes ((b.drop 4).take 4)⟩
            ((b.drop 8).take (b.length - 12)) →
        ∃ c, chunkParse b = .ok c) := by
  have hmsg : (if 12 < b.length then (b.drop 8).take (b.length - 12) else []) =
      (b.drop 8).take (b.length - 12) := by
    split
    · rfl
    · have h12 : b.length - 12 = 0 := by omega
      rw [h12, List.take_zero]
  have hparse : chunkParse b =
      if u32fromBeBytes (b.drop (b.length - 4)) ≠
          get_crc_checksum ⟨u32fromBeBytes ((b.drop 4).take 4)⟩
            ((b.drop 8).take (b.length - 12)) then
        .crcMismatch
      else
        .ok { data_length := u32fromBeBytes (b.take 4)
              chunk_type := ⟨u32fromBeBytes ((b.drop 4).take 4)⟩
              message_bytes := (b.drop 8).take (b.length - 12)
              crc := u32fromBeBytes (b.drop (b.length - 4)) } := by
    rw [chunkParse, if_neg (by omega)]
    simp only [gt_iff_lt, hmsg]
  by_cases hc : u32fromBeBytes (b.drop (b.length - 4)) =
      get_crc_checksum ⟨u32fromBeBytes ((b.drop 4).take 4)⟩
        ((b.drop 8).take (b.length - 12))
  · rw [hparse, if_neg (not_not_intro hc)]
    refine ⟨?_, fun _ => ⟨_, rfl⟩⟩
    constructor
    · intro h
      exact absurd h (by simp)
    · intro h
      exact absurd hc h
  · rw [hparse, if_pos hc]
    refine ⟨⟨fun _ => hc, fun _ => rfl⟩, fun h => absurd h hc⟩

/-- Witness for C4 at the concrete 12-byte `"RuSt"` chunk buffer. -/
theorem chunkParse_crc_mismatch_iff_witness :
    ((chunkParse emptyRuStChunkBytes = .crcMismatch ↔
        u32fromBeBytes (emptyRuStChunkBytes.drop (emptyRuStChunkBytes.length - 4)) ≠
          get_crc_checksum ⟨u32fromBeBytes ((emptyRuStChunkBytes.drop 4).take 4)⟩
            ((emptyRuStChunkBytes.drop 8).take (emptyRuStChunkBytes.length - 12))) ∧
      (u32fromBeBytes (emptyRuStChunkBytes.drop (emptyRuStChunkBytes.length - 4)) =
          get_crc_checksum ⟨u32fromBeBytes ((emptyRuStChunkBytes.drop 4).take 4)⟩
            ((emptyRuStChunkBytes.drop 8).take (emptyRuStChunkBytes.length - 12)) →
        ∃ c, chunkParse emptyRuStChunkBytes = .ok c)) :=
  chunkParse_crc_mismatch_iff emptyRuStChunkBytes (by decide)

/-! ## Png container theorems -/

/-- A successful run of the chunk loop consumed exactly the input:
concatenating the serializations of the parsed chunks reproduces the
bytes the loop was given. -/
theorem parseChunksFuel_ok_flatten (fuel : Nat) :
    ∀ (rest : List Nat) (cs : List Chunk), (∀ x ∈ rest, x < 256) →
      parseChunksFuel fuel rest = .ok cs →
      (cs.map Chunk.as_bytes).flatten = rest := by
  induction fuel with
  | zero =>
    intro rest cs hb h
    cases rest with
    | nil =>
      simp only [parseChunksFuel, Except.ok.injEq] at h
      subst h
      rfl
    | cons r rs => exact absurd h (by simp [parseChunksFuel])
  | succ fuel ih =>
    intro rest cs hb h
    cases rest with
    | nil =>
      simp only [parseChunksFuel, Except.ok.injEq] at h
      subst h
      rfl
    | cons r rs =>
      simp only [parseChunksFuel] at h
      split at h
      · exact absurd h (by simp)
      · rename_i hlen4
        split at h
        · exact absurd h (by simp)
        · rename_i hspan
          split at h
          · rename_i c heq
            split at h
            · rename_i cs' heq2
              simp only [Except.ok.injEq] at h
              subst h
              have hchunk : c.as_bytes =
                  (r :: rs).take (12 + u32fromBeBytes ((r :: rs).take 4)) := by
                refine chunkParse_ok_as_bytes _ c
                  (fun x hx => hb x (List.take_subset _ _ hx)) ?_ heq
                rw [List.length_take]
                omega
              have hrec : (cs'.map Chunk.as_bytes).flatten =
                  (r :: rs).drop (12 + u32fromBeBytes ((r :: rs).take 4)) :=
                ih _ cs' (fun x hx => hb x (List.drop_subset _ _ hx)) heq2
              simp only [List.map_cons, List.flatten_cons, hchunk, hrec,
                List.take_append_drop]
            · exact absurd h (by simp)
          · exact absurd h (by simp)

/-- C1 (spec-modelled container): for every byte buffer on which the
container parse succeeds, serializing the unmutated container
reproduces the input exactly. -/
theorem png_parse_roundtrip (bytes : List Nat) (png : Png)
    (hb : ∀ x ∈ bytes, x < 256) (h : pngParse bytes = .ok png) :
    png.as_bytes = bytes := by
  rw [pngParse] at h
  split at h
  · exact absurd h (by simp)
  · rename_i hsig
    rw [not_ne_iff] at hsig
    split at h
    · rename_i cs heq
      simp only [Except.ok.injEq] at h
      subst h
      rw [parseChunks] at heq
      rw [Png.as_bytes]
      simp only
      rw [parseChunksFuel_ok_flatten (bytes.drop 8).length (bytes.drop 8) cs
        (fun x hx => hb x (List.drop_subset _ _ hx)) heq]
      rw [← hsig, List.take_append_drop]
    · exact absurd h (by simp)

set_option maxRecDepth 1000000 in
/-- Witness for C1: the container holding the signature and one parsed
empty-payload `"RuSt"` chunk reserializes to the original 20-byte
input. -/
theorem png_parse_roundtrip_witness :
    (Png.mk [Chunk.mk 0 ⟨ruStVal⟩ [] 3565422908]).as_bytes =
      PNG_SIGNATURE ++ emptyRuStChunkBytes :=
  png_parse_roundtrip (PNG_SIGNATURE ++ emptyRuStChunkBytes)
    (Png.mk [Chunk.mk 0 ⟨ruStVal⟩ [] 3565422908]) (by decide) (by rfl)

end PngCodec
